import Mathlib

/-!
Shallow embedding of the resume-improver repository (src/model.py,
src/utils.py, src/resumeimprover.py).

External effects are abstracted as explicit parameters: the filesystem is a
predicate on paths, the PDF libraries are oracles returning `Option` (with
`none` standing for the library raising an exception, which the source code
catches), and the language-model backend is an oracle from a task string to
the stream's final result. Python exceptions raised by the repository's own
code are modelled with `Except`; Python object identity for the cached
client handle is modelled with an allocation counter.
-/

/-- The character list `pre` begins the character list that follows
(helper for Python's substring test). -/
def startsWithChars : List Char → List Char → Bool
  | [], _ => true
  | _ :: _, [] => false
  | a :: as, b :: bs => a == b && startsWithChars as bs

/-- Some position of the second list starts with `needle`. -/
def hasSubChars (needle : List Char) : List Char → Bool
  | [] => startsWithChars needle []
  | b :: bs => startsWithChars needle (b :: bs) || hasSubChars needle bs

/-- Python's substring containment `needle in hay`. -/
def strContains (hay needle : String) : Bool := hasSubChars needle.data hay.data

/-- Python's `s.endswith(suf)`. -/
def strEndsWith (s suf : String) : Bool :=
  startsWithChars suf.data.reverse s.data.reverse

/-- ASCII lower-casing of one character (the alphabet the code's extension
checks deal with). -/
def lowerChar (c : Char) : Char :=
  if 65 ≤ c.toNat ∧ c.toNat ≤ 90 then Char.ofNat (c.toNat + 32) else c

/-- Python's `s.lower()` (ASCII). -/
def strToLower (s : String) : String := String.mk (s.data.map lowerChar)

/-- A whitespace character as Python's `str.strip()` sees it. -/
def isSpaceChar (c : Char) : Bool := c = ' ' || c = '\t' || c = '\n' || c = '\r'

/-- Python's `s.strip()`: drop leading and trailing whitespace. -/
def strStrip (s : String) : String :=
  String.mk (((s.data.dropWhile isSpaceChar).reverse.dropWhile isSpaceChar).reverse)

/-- One message of an agent chat: its emitting agent's name and its text
content (autogen chat message restricted to what the code inspects). -/
structure TeamMessage where
  source : String
  content : String
deriving DecidableEq, Repr

/-- autogen's TextMentionTermination as configured by the code: a marker
text and an optional source restriction. -/
structure TextMentionTermination where
  text : String
  sources : Option (List String)
deriving DecidableEq

/-- The condition fires on a message when the message's source passes the
source restriction (every source passes when the restriction is absent) and
the content contains the marker text. -/
def TextMentionTermination.fires (t : TextMentionTermination) (m : TeamMessage) : Bool :=
  (match t.sources with
   | none => true
   | some srcs => srcs.contains m.source) && strContains m.content t.text

/-- The three text agents of `ResumeTeam.create_team`, in their round-robin
order. -/
def teamAgents : List String :=
  ["ResumeDraftAgent", "ResumeEnhancementAgent", "ResumeConcisenessAgent"]

/-- The termination condition built in `ResumeTeam.create_team`:
TextMentionTermination("FINAL", sources=["ResumeConcisenessAgent"]). -/
def teamTermination : TextMentionTermination :=
  { text := "FINAL", sources := some ["ResumeConcisenessAgent"] }

/-- The agent that speaks on the k-th turn of the round-robin group over the
three text agents. -/
def speakerAt (k : Nat) : String := teamAgents.getD (k % 3) ""

/-- One run of the RoundRobinGroupChat over the three text agents: `behav k`
is the content the k-th turn's speaker emits; after each emitted message the
termination condition is evaluated, and the run stops with the emitted
messages once it fires. `fuel` bounds the number of turns (the source has no
round cap); `none` means the bound was reached without termination. -/
def runStream (behav : Nat → String) : Nat → List TeamMessage → Option (List TeamMessage)
  | 0, _ => none
  | fuel + 1, acc =>
    let m : TeamMessage := { source := speakerAt acc.length, content := behav acc.length }
    if teamTermination.fires m then some (acc ++ [m])
    else runStream behav fuel (acc ++ [m])

/-- The final item of an agent/team `run_stream`: the collected messages in
emission order (autogen's TaskResult restricted to what the code reads). -/
structure TaskResult where
  messages : List TeamMessage
deriving DecidableEq

/-- Abstract page image (PIL image abstracted to an identifier; the code
never inspects pixel data). -/
structure PageImage where
  pixels : Nat
deriving DecidableEq, Repr

/-- `ResumeImprover.improve_resume_text`: builds the task string from the
team task prompt, the literal separator and the resume text, drives the team
(`run` abstracts the `async for` over `team.run_stream`, returning the last
yielded item, whose `.messages` lists every emitted message in order), and
returns the last message's content; `None` when the run yielded nothing or
yielded no messages (Python: `if improve_result and improve_result.messages`). -/
def improve_resume_text (run : String → Option TaskResult)
    (task_prompt resume_text : String) : Option String :=
  let task := task_prompt ++ "\n\nOriginal Resume Text:\n" ++ resume_text
  match run task with
  | none => none
  | some improve_result =>
    match improve_result.messages.getLast? with
    | none => none
    | some m => some m.content

/-- `ResumeImprover.generate_resume_image`: a single-shot call to the image
agent with the multimodal task (text block plus the original page image);
returns the last message's content, `None` when nothing was emitted. -/
def generate_resume_image (runImg : String → PageImage → Option TaskResult)
    (improved_text : String) (original_image : PageImage) : Option String :=
  let image_task :=
    "New Resume Content:\n" ++ improved_text ++ "\n\nOriginal image with desired format attached"
  match runImg image_task original_image with
  | none => none
  | some result =>
    match result.messages.getLast? with
    | none => none
    | some m => some m.content

/-- `ModelConfig` of src/model.py: the four Azure settings. -/
structure ModelConfig where
  api_key : String
  endpoint : String
  api_version : String
  deployment_name : String
deriving DecidableEq

/-- `ModelConfig.__post_init__`: construction validates the four fields in
order and raises `ValueError` (modelled as `Except.error` carrying the
message) naming the first empty one. -/
def mkModelConfig (api_key endpoint api_version deployment_name : String) :
    Except String ModelConfig :=
  if api_key = "" then .error "AZURE_OPENAI_API_KEY is required"
  else if endpoint = "" then .error "AZURE_OPENAI_ENDPOINT is required"
  else if api_version = "" then .error "AZURE_OPENAI_API_VERSION is required"
  else if deployment_name = "" then .error "AZURE_OPENAI_DEPLOYMENT_NAME is required"
  else .ok { api_key, endpoint, api_version, deployment_name }

deriving instance DecidableEq for Except

/-- Whether an `Except` value is a success. -/
def exceptIsOk {ε α : Type} : Except ε α → Bool
  | .ok _ => true
  | .error _ => false

/-- The Azure client handle as `ModelManager._create_client` builds it; the
`handle` field is an allocation counter modelling Python object identity
(two clients are the same object exactly when their handles are equal). -/
structure Client where
  azure_deployment : String
  model : String
  api_key : String
  azure_endpoint : String
  api_version : String
  handle : Nat
deriving DecidableEq

/-- `ModelManager` state: the stored configuration (`self._config`), the
cached client (`self._client`, `none` when absent) and the allocation
counter for client identity. -/
structure ModelManager where
  config : ModelConfig
  clientCache : Option Client
  nextHandle : Nat
deriving DecidableEq

/-- `ModelManager._create_client`: a fresh client from the current
configuration (deployment name is passed for both `azure_deployment` and
`model`). -/
def ModelManager.createClient (m : ModelManager) : Client :=
  { azure_deployment := m.config.deployment_name
    model := m.config.deployment_name
    api_key := m.config.api_key
    azure_endpoint := m.config.endpoint
    api_version := m.config.api_version
    handle := m.nextHandle }

/-- The `ModelManager.client` property: return the cached client, creating
and caching it on first access; returns the client and the updated manager
state. -/
def ModelManager.client (m : ModelManager) : Client × ModelManager :=
  match m.clientCache with
  | some c => (c, m)
  | none =>
    let c := m.createClient
    (c, { m with clientCache := some c, nextHandle := m.nextHandle + 1 })

/-- A partial field update (the `**kwargs` of `update_config` restricted to
the configuration's field names; `none` means the field is not named). -/
structure ConfigUpdate where
  api_key : Option String
  endpoint : Option String
  api_version : Option String
  deployment_name : Option String
deriving DecidableEq

/-- `ModelManager.update_config`: copy the current configuration into a
dict, overlay the given fields, and construct a new `ModelConfig` from the
result. The constructor validates in `__post_init__`, so a `ValueError`
(returned as `some message`) propagates before `self._config` or
`self._client` is assigned: on failure the manager state is returned
unchanged. On success the new configuration is stored and the cached client
is reset to force recreation. -/
def ModelManager.update_config (m : ModelManager) (u : ConfigUpdate) :
    ModelManager × Option String :=
  let k := u.api_key.getD m.config.api_key
  let e := u.endpoint.getD m.config.endpoint
  let v := u.api_version.getD m.config.api_version
  let d := u.deployment_name.getD m.config.deployment_name
  match mkModelConfig k e v d with
  | .error err => (m, some err)
  | .ok c => ({ m with config := c, clientCache := none }, none)

/-- The final path component (the characters after the last slash). -/
def lastComponent (p : String) : String :=
  String.mk (p.data.reverse.takeWhile (fun c => c ≠ '/')).reverse

/-- The directory part of a path (Python `PurePath.parent` for relative
paths with a directory part; "." when the path is a bare filename). -/
def pathParent (p : String) : String :=
  match p.data.reverse.dropWhile (fun c => c ≠ '/') with
  | [] => "."
  | _ :: rest => String.mk rest.reverse

/-- Position of the last '.' in a character list, if any. -/
def lastDotPos : List Char → Option Nat
  | [] => none
  | c :: rest =>
    match lastDotPos rest with
    | some k => some (k + 1)
    | none => if c = '.' then some 0 else none

/-- Python `pathlib.PurePath.suffix`: the final component's extension with
its dot; empty when the component has no dot, or the dot is leading or
trailing. -/
def pathSuffix (p : String) : String :=
  let nm := lastComponent p
  match lastDotPos nm.data with
  | none => ""
  | some i => if 0 < i && i + 1 < nm.data.length then String.mk (nm.data.drop i) else ""

/-- The final component without its extension (Python `PurePath.stem`). -/
def pathStem (p : String) : String :=
  let nm := lastComponent p
  match lastDotPos nm.data with
  | none => nm
  | some i => if 0 < i && i + 1 < nm.data.length then String.mk (nm.data.take i) else nm

/-- Exceptions the repository's own code raises (kind and message). -/
inductive PyError where
  | fileNotFound (msg : String)
  | valueError (msg : String)
  | indexError
deriving DecidableEq

/-- `FileManager.validate_pdf_path`: existence check first
(`FileNotFoundError`), then the case-insensitive extension check on the
pathlib suffix (`ValueError`); returns the path on success. -/
def validate_pdf_path (pathExists : String → Bool) (pdf_path : String) :
    Except PyError String :=
  if pathExists pdf_path = false then
    .error (.fileNotFound ("File not found: " ++ pdf_path))
  else if strToLower (pathSuffix pdf_path) ≠ ".pdf" then
    .error (.valueError ("File is not a PDF: " ++ pdf_path))
  else .ok pdf_path

/-- `ResumeImproverCLI.validate_pdf_file`: existence check first, then the
case-insensitive `.lower().endswith(".pdf")` check. -/
def validate_pdf_file (pathExists : String → Bool) (pdf_path : String) :
    Except PyError String :=
  if pathExists pdf_path = false then
    .error (.fileNotFound ("File '" ++ pdf_path ++ "' not found"))
  else if strEndsWith (strToLower pdf_path) ".pdf" = false then
    .error (.valueError "Please provide a PDF file")
  else .ok pdf_path

/-- `PDFProcessor.extract_text`: raise `FileNotFoundError` for a missing
path; otherwise read the pages (`parsePages path = none` models the PyPDF2
read raising, which the source catches, warns about and turns into the empty
string), concatenate each page's text followed by a line break, and return
the stripped result. -/
def extract_text (pathExists : String → Bool)
    (parsePages : String → Option (List String)) (pdf_path : String) :
    Except PyError String :=
  if pathExists pdf_path = false then
    .error (.fileNotFound ("PDF file not found: " ++ pdf_path))
  else
    match parsePages pdf_path with
    | none => .ok ""
    | some pages => .ok (strStrip (String.join (pages.map (fun t => t ++ "\n"))))

/-- Python's `dpi or self.default_dpi`: a `None` or zero dpi falls back to
the default. -/
def resolveDpi (default_dpi : Nat) (dpi : Option Nat) : Nat :=
  match dpi with
  | none => default_dpi
  | some n => if n = 0 then default_dpi else n

/-- `PDFProcessor.convert_to_images`: raise `FileNotFoundError` for a
missing path; otherwise convert at the resolved dpi (`convertPath p d =
none` models the pdf2image conversion raising, which the source catches,
warns about and turns into the empty list). -/
def convert_to_images (pathExists : String → Bool)
    (convertPath : String → Nat → Option (List PageImage))
    (default_dpi : Nat) (pdf_path : String) (dpi : Option Nat) :
    Except PyError (List PageImage) :=
  if pathExists pdf_path = false then
    .error (.fileNotFound ("PDF file not found: " ++ pdf_path))
  else
    match convertPath pdf_path (resolveDpi default_dpi dpi) with
    | none => .ok []
    | some imgs => .ok imgs

/-- Python's format `i:02d`: decimal rendering left-padded with zeros to
width two. -/
def pad2 (n : Nat) : String := if n < 10 then "0" ++ toString n else toString n

/-- The write loop of `ImageProcessor.save_images`: for each image, in input
order, the written file path (directory, base name, index formatted `02d`,
`.png`) paired with the image written there; the index starts at the given
value (the source enumerates from 1). -/
def saveImagesLoop (output_dir base_filename : String) :
    Nat → List PageImage → List (String × PageImage)
  | _, [] => []
  | i, img :: rest =>
    (output_dir ++ "/" ++ base_filename ++ "_" ++ pad2 i ++ ".png", img)
      :: saveImagesLoop output_dir base_filename (i + 1) rest

/-- The filesystem effects and return value of `save_images`: the directory
created with parents (`mkdir(parents=True, exist_ok=True)`), the writes
performed, and the returned list of saved paths. -/
structure SaveEffects where
  createdDirs : List String
  writes : List (String × PageImage)
  saved_paths : List String
deriving DecidableEq

/-- `ImageProcessor.save_images`: create the output directory (and parents),
write each image under its sequential name, and return the saved paths in
write order. -/
def save_images (images : List PageImage) (output_dir : String)
    (base_filename : String) : SaveEffects :=
  let ws := saveImagesLoop output_dir base_filename 1 images
  { createdDirs := [output_dir], writes := ws, saved_paths := ws.map Prod.fst }

/-- `FileManager.generate_output_filename`: same directory, stem plus the
suffix, `.pdf` extension. -/
def generate_output_filename (input_path : String) (sfx : String) : String :=
  pathParent input_path ++ "/" ++ pathStem input_path ++ "_" ++ sfx ++ ".pdf"

/-- The external world the workflow runs against: the filesystem, the two
PDF library oracles, the two inference oracles (text team and image agent)
and the HTML-to-PDF exporter's success predicate. -/
structure World where
  pathExists : String → Bool
  parsePages : String → Option (List String)
  convertPages : String → Nat → Option (List PageImage)
  teamResult : String → Option TaskResult
  imageResult : String → PageImage → Option TaskResult
  exportOk : String → Bool

/-- `ResumeProcessor.process_pdf` with `output_dir=None` (as the improver
calls it): validate the path, extract the text, convert the pages; any
exception propagates. -/
def process_pdf (w : World) (pdf_path : String) :
    Except PyError (String × List PageImage) := do
  let vp ← validate_pdf_path w.pathExists pdf_path
  let text_content ← extract_text w.pathExists w.parsePages vp
  let images ← convert_to_images w.pathExists w.convertPages 300 vp none
  pure (text_content, images)

/-- `ResumeImprover.process_pdf_file`: run `process_pdf`, then raise
`ValueError` when the stripped text is empty or when the image list is
empty. -/
def process_pdf_file (w : World) (pdf_path : String) :
    Except PyError (String × List PageImage) := do
  let r ← process_pdf w pdf_path
  if strStrip r.1 = "" then
    throw (.valueError "No text could be extracted from the PDF")
  else if r.2.isEmpty then
    throw (.valueError "No images could be extracted from the PDF")
  else pure r

/-- Observable inference/export calls of one workflow run. -/
inductive Ev where
  | textInference
  | imageInference
  | exportCall
deriving DecidableEq

/-- `ResumeImprover.improve_resume`: run the text pipeline; when it returns
a falsy result (`None` or the empty string) return `None` without invoking
the image stage; otherwise run the image stage and return its result. The
event list records which inference stages were invoked. -/
def improve_resume (w : World) (task_prompt resume_text : String)
    (resume_image : PageImage) : Option String × List Ev :=
  match improve_resume_text w.teamResult task_prompt resume_text with
  | none => (none, [Ev.textInference])
  | some improved_text =>
    if improved_text = "" then (none, [Ev.textInference])
    else
      (generate_resume_image w.imageResult improved_text resume_image,
        [Ev.textInference, Ev.imageInference])

/-- The outcome a run of the CLI reports. -/
inductive Outcome where
  | savedOk (content : String)
  | savedFailed (content : String)
  | noImproved
  | errorOut (e : PyError)
deriving DecidableEq

/-- `ResumeImproverCLI.run` for a given path: validate, process the PDF
(an exception is caught and reported), improve, and, when content was
produced, export it (export failure is reported as partial success). The
event list records the inference and export calls made. -/
def cliRun (w : World) (task_prompt pdf_path : String) : Outcome × List Ev :=
  match validate_pdf_file w.pathExists pdf_path with
  | .error e => (.errorOut e, [])
  | .ok vp =>
    match process_pdf_file w vp with
    | .error e => (.errorOut e, [])
    | .ok (resume_text, resume_images) =>
      match resume_images with
      | [] => (.errorOut .indexError, [])
      | img0 :: _ =>
        match improve_resume w task_prompt resume_text img0 with
        | (none, evs) => (.noImproved, evs)
        | (some content, evs) =>
          if content = "" then (.noImproved, evs)
          else if w.exportOk content then (.savedOk content, evs ++ [Ev.exportCall])
          else (.savedFailed content, evs ++ [Ev.exportCall])

/-- A concrete world whose PDF parses to whitespace-only text (used to
evaluate the workflow on an input with no extractable text). -/
def worldNoText : World where
  pathExists := fun _ => true
  parsePages := fun _ => some ["   "]
  convertPages := fun _ _ => some [⟨1⟩]
  teamResult := fun _ => none
  imageResult := fun _ _ => none
  exportOk := fun _ => true

/-- A concrete world whose page conversion fails (degrading to the empty
image list). -/
def worldNoImages : World where
  pathExists := fun _ => true
  parsePages := fun _ => some ["hello"]
  convertPages := fun _ _ => none
  teamResult := fun _ => none
  imageResult := fun _ _ => none
  exportOk := fun _ => true

/-- A concrete world whose text pipeline yields no result. -/
def worldNoPipeline : World where
  pathExists := fun _ => true
  parsePages := fun _ => some ["hello"]
  convertPages := fun _ _ => some [⟨1⟩]
  teamResult := fun _ => none
  imageResult := fun _ _ => none
  exportOk := fun _ => true

/-- A concrete manager state with no cached client. -/
def mgrFresh : ModelManager :=
  { config := ⟨"key", "ep", "ver", "dep"⟩, clientCache := none, nextHandle := 0 }

/-- The successful partial update of the spec's example: new credential and
deployment id, endpoint and API version untouched. -/
def updTwoFields : ConfigUpdate :=
  { api_key := some "key2", endpoint := none, api_version := none,
    deployment_name := some "dep2" }

/-- The manager state `update_config mgrFresh updTwoFields` produces. -/
def mgrMerged : ModelManager :=
  { config := ⟨"key2", "ep", "ver", "dep2"⟩, clientCache := none, nextHandle := 0 }

/-- A concrete manager state holding a cached client. -/
def mgrCached : ModelManager :=
  { config := ⟨"key", "ep", "ver", "dep"⟩,
    clientCache := some ⟨"dep", "dep", "key", "ep", "ver", 0⟩, nextHandle := 1 }

/-- An update whose merged credential is empty, so validation fails. -/
def updEmptyKey : ConfigUpdate :=
  { api_key := some "", endpoint := none, api_version := none, deployment_name := none }

/-- Every terminated run of the round-robin stream decomposes into the
messages before termination, none of which fires the condition, followed by
one final message that fires it. -/
theorem runStream_shape (behav : Nat → String) :
    ∀ fuel acc msgs, runStream behav fuel acc = some msgs →
      ∃ pre m, msgs = acc ++ (pre ++ [m]) ∧ teamTermination.fires m = true ∧
        ∀ x ∈ pre, teamTermination.fires x = false := by
  intro fuel
  induction fuel with
  | zero => intro acc msgs h; simp [runStream] at h
  | succ n ih =>
    intro acc msgs h
    rw [runStream] at h
    by_cases hf : teamTermination.fires
        { source := speakerAt acc.length, content := behav acc.length } = true
    · rw [if_pos hf] at h
      exact ⟨[], _, by simpa using (Option.some.inj h).symm, hf, by simp⟩
    · rw [if_neg hf] at h
      obtain ⟨pre, m, hmsgs, hm, hpre⟩ := ih _ _ h
      refine ⟨{ source := speakerAt acc.length, content := behav acc.length } :: pre, m,
        by simp [hmsgs], hm, ?_⟩
      intro x hx
      rcases List.mem_cons.mp hx with rfl | hx
      · exact Bool.eq_false_iff.mpr hf
      · exact hpre x hx

/-- C1: every terminated run of the turn-taking group over the three text
agents ends exactly at a message emitted by the conciseness agent whose
content contains the literal marker "FINAL"; no earlier message of the run
fires the termination condition, and a message from the draft or enhancement
agent never fires it whatever its content. -/
theorem c1_source_restricted_termination (behav : Nat → String) (fuel : Nat)
    (msgs : List TeamMessage) (h : runStream behav fuel [] = some msgs) :
    (∃ lastMsg, msgs.getLast? = some lastMsg ∧
        lastMsg.source = "ResumeConcisenessAgent" ∧
        strContains lastMsg.content "FINAL" = true) ∧
    (∀ x ∈ msgs.dropLast, teamTermination.fires x = false) ∧
    (∀ c, teamTermination.fires { source := "ResumeDraftAgent", content := c } = false ∧
        teamTermination.fires { source := "ResumeEnhancementAgent", content := c } = false) := by
  obtain ⟨pre, m, hmsgs, hm, hpre⟩ := runStream_shape behav fuel [] msgs h
  simp only [List.nil_append] at hmsgs
  subst hmsgs
  have hsrc : m.source = "ResumeConcisenessAgent" ∧ strContains m.content "FINAL" = true := by
    simp only [teamTermination, TextMentionTermination.fires, Bool.and_eq_true,
      List.contains_cons, List.contains_nil, Bool.or_false, beq_iff_eq] at hm
    exact hm
  refine ⟨⟨m, ?_, hsrc.1, hsrc.2⟩, ?_, ?_⟩
  · simp
  · intro x hx
    rw [List.dropLast_concat] at hx
    exact hpre x hx
  · intro c
    constructor <;> simp [teamTermination, TextMentionTermination.fires]

/-- Witness for C1: a three-turn run in which the draft and enhancement
agents both emit text containing "FINAL" without stopping the round, and the
conciseness agent's "FINAL" ends it. -/
theorem c1_source_restricted_termination_witness :
    (∃ lastMsg, ([{ source := "ResumeDraftAgent", content := "has FINAL too" },
        { source := "ResumeEnhancementAgent", content := "has FINAL too" },
        { source := "ResumeConcisenessAgent", content := "FINAL done" }] :
          List TeamMessage).getLast? = some lastMsg ∧
        lastMsg.source = "ResumeConcisenessAgent" ∧
        strContains lastMsg.content "FINAL" = true) ∧
    (∀ x ∈ ([{ source := "ResumeDraftAgent", content := "has FINAL too" },
        { source := "ResumeEnhancementAgent", content := "has FINAL too" },
        { source := "ResumeConcisenessAgent", content := "FINAL done" }] :
          List TeamMessage).dropLast, teamTermination.fires x = false) ∧
    (∀ c, teamTermination.fires { source := "ResumeDraftAgent", content := c } = false ∧
        teamTermination.fires { source := "ResumeEnhancementAgent", content := c } = false) :=
  c1_source_restricted_termination
    (fun k => if k == 2 then "FINAL done" else "has FINAL too") 5
    [{ source := "ResumeDraftAgent", content := "has FINAL too" },
     { source := "ResumeEnhancementAgent", content := "has FINAL too" },
     { source := "ResumeConcisenessAgent", content := "FINAL done" }] (by decide)

/-- C2: `improve_resume_text` submits exactly the task built from the team
task prompt, the literal separator and the original resume text, and returns
the content of the chronologically last emitted message of the run; when the
run produced nothing, or produced no messages, it returns `none` instead of
failing. -/
theorem c2_improve_resume_text_contract (run : String → Option TaskResult)
    (task_prompt resume_text : String) :
    improve_resume_text run task_prompt resume_text =
      ((run (task_prompt ++ "\n\nOriginal Resume Text:\n" ++ resume_text)).bind
        (fun r => r.messages.getLast?)).map TeamMessage.content := by
  unfold improve_resume_text
  cases hr : run (task_prompt ++ "\n\nOriginal Resume Text:\n" ++ resume_text) with
  | none => simp [hr]
  | some r =>
    cases hl : r.messages.getLast? with
    | none => simp [hr, hl]
    | some m => simp [hr, hl]

/-- C3: for a valid, existing PDF path, when extraction degrades to empty
text the workflow stops with the hard error "No text could be extracted from
the PDF", and when conversion degrades to an empty image list it stops with
"No images could be extracted from the PDF"; in both cases the recorded
event trace is empty, so no inference call was made. -/
theorem c3_empty_extraction_halts (w : World) (task_prompt pdf_path : String)
    (hex : w.pathExists pdf_path = true)
    (hcli : strEndsWith (strToLower pdf_path) ".pdf" = true)
    (hsfx : strToLower (pathSuffix pdf_path) = ".pdf") :
    (∀ t, extract_text w.pathExists w.parsePages pdf_path = .ok t → strStrip t = "" →
      cliRun w task_prompt pdf_path =
        (.errorOut (.valueError "No text could be extracted from the PDF"), [])) ∧
    (∀ t, extract_text w.pathExists w.parsePages pdf_path = .ok t → strStrip t ≠ "" →
      convert_to_images w.pathExists w.convertPages 300 pdf_path none = .ok [] →
      cliRun w task_prompt pdf_path =
        (.errorOut (.valueError "No images could be extracted from the PDF"), [])) := by
  have hval : validate_pdf_file w.pathExists pdf_path = .ok pdf_path := by
    simp [validate_pdf_file, hex, hcli]
  have hvalp : validate_pdf_path w.pathExists pdf_path = .ok pdf_path := by
    simp [validate_pdf_path, hex, hsfx]
  constructor
  · intro t ht ht0
    have hconv : ∃ l, convert_to_images w.pathExists w.convertPages 300 pdf_path none = .ok l := by
      simp only [convert_to_images, hex]
      cases w.convertPages pdf_path (resolveDpi 300 none) with
      | none => exact ⟨[], by simp⟩
      | some l => exact ⟨l, by simp⟩
    obtain ⟨l, hconv⟩ := hconv
    have hp : process_pdf_file w pdf_path =
        .error (.valueError "No text could be extracted from the PDF") := by
      simp [process_pdf_file, process_pdf, hvalp, ht, hconv, ht0, Except.bind, bind,
        Except.instMonad, throw, throwThe, MonadExceptOf.throw, pure, Except.pure]
    simp [cliRun, hval, hp]
  · intro t ht ht1 hconv
    have hp : process_pdf_file w pdf_path =
        .error (.valueError "No images could be extracted from the PDF") := by
      simp [process_pdf_file, process_pdf, hvalp, ht, hconv, ht1, Except.bind, bind,
        Except.instMonad, throw, throwThe, MonadExceptOf.throw, pure, Except.pure]
    simp [cliRun, hval, hp]

/-- Witness for C3: one world with whitespace-only extracted text, one with
a failed page conversion; both runs stop with the matching hard error and an
empty event trace. -/
theorem c3_empty_extraction_halts_witness :
    cliRun worldNoText "improve" "resume.pdf" =
      (.errorOut (.valueError "No text could be extracted from the PDF"), []) ∧
    cliRun worldNoImages "improve" "resume.pdf" =
      (.errorOut (.valueError "No images could be extracted from the PDF"), []) :=
  ⟨(c3_empty_extraction_halts worldNoText "improve" "resume.pdf" (by decide) (by decide)
      (by decide)).1 "" (by decide) (by decide),
    (c3_empty_extraction_halts worldNoImages "improve" "resume.pdf" (by decide) (by decide)
      (by decide)).2 "hello" (by decide) (by decide) (by decide)⟩

/-- C4: when the text pipeline yields no result, `improve_resume` returns
`none` with only the text-inference event recorded (the image stage is never
invoked), and the CLI workflow reports no improved resume with the same
trace, so export is never attempted either. -/
theorem c4_no_text_result_halts (w : World) (task_prompt resume_text : String)
    (img : PageImage) (pdf_path : String)
    (h : improve_resume_text w.teamResult task_prompt resume_text = none) :
    improve_resume w task_prompt resume_text img = (none, [Ev.textInference]) ∧
    (∀ imgs, process_pdf_file w pdf_path = .ok (resume_text, img :: imgs) →
      validate_pdf_file w.pathExists pdf_path = .ok pdf_path →
      cliRun w task_prompt pdf_path = (.noImproved, [Ev.textInference])) := by
  have h1 : improve_resume w task_prompt resume_text img = (none, [Ev.textInference]) := by
    simp [improve_resume, h]
  refine ⟨h1, ?_⟩
  intro imgs hproc hval
  simp [cliRun, hval, hproc, h1]

/-- Witness for C4: a world whose team run yields nothing; the image stage
and export are absent from the trace. -/
theorem c4_no_text_result_halts_witness :
    improve_resume worldNoPipeline "improve" "hello" ⟨1⟩ = (none, [Ev.textInference]) ∧
    cliRun worldNoPipeline "improve" "resume.pdf" = (.noImproved, [Ev.textInference]) :=
  have H := c4_no_text_result_halts worldNoPipeline "improve" "hello" ⟨1⟩ "resume.pdf" (by decide)
  ⟨H.1, H.2 [] (by decide) (by decide)⟩

/-- An `ok` result of configuration construction carries exactly the four
given fields. -/
theorem mkModelConfig_ok (k e v d : String) (c : ModelConfig)
    (h : mkModelConfig k e v d = .ok c) : c = ⟨k, e, v, d⟩ := by
  unfold mkModelConfig at h
  split_ifs at h
  all_goals simp_all

/-- C5: accessing the client twice with no update in between returns the
same cached handle and performs no new construction; after a successful
partial update the stored configuration is the merge of the given fields
over the prior ones (unnamed fields keep their prior values), the cached
client is discarded, and the next access allocates a fresh handle whose
settings reflect the merged configuration. -/
theorem c5_client_cache_and_update (m m' : ModelManager) (u : ConfigUpdate)
    (hupd : ModelManager.update_config m u = (m', none)) :
    ((m.client.2).client.1 = m.client.1 ∧ (m.client.2).client.2 = m.client.2) ∧
    (m'.config.api_key = u.api_key.getD m.config.api_key ∧
      m'.config.endpoint = u.endpoint.getD m.config.endpoint ∧
      m'.config.api_version = u.api_version.getD m.config.api_version ∧
      m'.config.deployment_name = u.deployment_name.getD m.config.deployment_name) ∧
    m'.clientCache = none ∧
    (m'.client.1.handle = m'.nextHandle ∧
      m'.client.2.nextHandle = m'.nextHandle + 1 ∧
      m'.client.2.clientCache = some m'.client.1 ∧
      m'.client.1.api_key = m'.config.api_key ∧
      m'.client.1.azure_endpoint = m'.config.endpoint ∧
      m'.client.1.api_version = m'.config.api_version ∧
      m'.client.1.azure_deployment = m'.config.deployment_name ∧
      m'.client.1.model = m'.config.deployment_name) := by
  constructor
  · cases hc : m.clientCache with
    | some c => simp [ModelManager.client, hc]
    | none => simp [ModelManager.client, hc]
  · simp only [ModelManager.update_config] at hupd
    cases hmk : mkModelConfig (u.api_key.getD m.config.api_key)
        (u.endpoint.getD m.config.endpoint) (u.api_version.getD m.config.api_version)
        (u.deployment_name.getD m.config.deployment_name) with
    | error err => rw [hmk] at hupd; simp at hupd
    | ok c =>
      rw [hmk] at hupd
      have hc := mkModelConfig_ok _ _ _ _ _ hmk
      subst hc
      have hm' : m' = { m with
          config := ⟨u.api_key.getD m.config.api_key, u.endpoint.getD m.config.endpoint,
            u.api_version.getD m.config.api_version,
            u.deployment_name.getD m.config.deployment_name⟩,
          clientCache := none } := by
        have := (Prod.mk.injEq _ _ _ _).mp hupd
        exact this.1.symm
      subst hm'
      simp [ModelManager.client, ModelManager.createClient]

/-- Witness for C5: updating only the credential and the deployment id of a
concrete manager leaves endpoint and API version at their prior values,
clears the cache, and the next access builds a fresh handle. -/
theorem c5_client_cache_and_update_witness :
    ((mgrFresh.client.2).client.1 = mgrFresh.client.1 ∧
      (mgrFresh.client.2).client.2 = mgrFresh.client.2) ∧
    mgrMerged.clientCache = none ∧
    mgrMerged.config = ⟨"key2", "ep", "ver", "dep2"⟩ ∧
    mgrMerged.client.1.handle = mgrMerged.nextHandle ∧
    mgrMerged.client.2.nextHandle = mgrMerged.nextHandle + 1 :=
  have H := c5_client_cache_and_update mgrFresh mgrMerged updTwoFields (by decide)
  ⟨H.1, H.2.2.1, by decide, H.2.2.2.1, H.2.2.2.2.1⟩

/-- C6: constructing the configuration succeeds exactly when all four fields
are non-empty, and on failure the error names the first empty field checked
in the order credential, endpoint, API version, deployment name. -/
theorem c6_config_validation (a e v d : String) :
    ((exceptIsOk (mkModelConfig a e v d)) = true ↔ (a ≠ "" ∧ e ≠ "" ∧ v ≠ "" ∧ d ≠ "")) ∧
    (a = "" → mkModelConfig a e v d = .error "AZURE_OPENAI_API_KEY is required") ∧
    (a ≠ "" → e = "" → mkModelConfig a e v d = .error "AZURE_OPENAI_ENDPOINT is required") ∧
    (a ≠ "" → e ≠ "" → v = "" →
      mkModelConfig a e v d = .error "AZURE_OPENAI_API_VERSION is required") ∧
    (a ≠ "" → e ≠ "" → v ≠ "" → d = "" →
      mkModelConfig a e v d = .error "AZURE_OPENAI_DEPLOYMENT_NAME is required") := by
  unfold mkModelConfig
  split_ifs with h1 h2 h3 h4
  all_goals simp_all [exceptIsOk]

/-- C7: both extraction operations raise the not-found error for a path that
does not exist; for an existing path whose content fails to parse or to
convert, text extraction returns the empty string and page conversion the
empty list instead of propagating the failure. -/
theorem c7_extractor_error_model (fsExists : String → Bool)
    (parsePages : String → Option (List String))
    (convertPath : String → Nat → Option (List PageImage))
    (default_dpi : Nat) (p : String) (dpi : Option Nat) :
    (fsExists p = false →
      extract_text fsExists parsePages p = .error (.fileNotFound ("PDF file not found: " ++ p)) ∧
      convert_to_images fsExists convertPath default_dpi p dpi =
        .error (.fileNotFound ("PDF file not found: " ++ p))) ∧
    (fsExists p = true → parsePages p = none →
      extract_text fsExists parsePages p = .ok "") ∧
    (fsExists p = true → convertPath p (resolveDpi default_dpi dpi) = none →
      convert_to_images fsExists convertPath default_dpi p dpi = .ok []) := by
  refine ⟨fun h => ⟨?_, ?_⟩, fun h hp => ?_, fun h hc => ?_⟩ <;>
    simp [extract_text, convert_to_images, *]

/-- The images written by the save loop are the input images in order. -/
theorem saveImagesLoop_snd (d b : String) :
    ∀ (imgs : List PageImage) (i : Nat), (saveImagesLoop d b i imgs).map Prod.snd = imgs := by
  intro imgs
  induction imgs with
  | nil => intro i; rfl
  | cons x xs ih => intro i; simp [saveImagesLoop, ih]

/-- The paths written by the save loop starting at index `i` are the
sequentially numbered names. -/
theorem saveImagesLoop_fst (d b : String) :
    ∀ (imgs : List PageImage) (i : Nat),
      (saveImagesLoop d b i imgs).map Prod.fst =
        (List.range imgs.length).map (fun j => d ++ "/" ++ b ++ "_" ++ pad2 (i + j) ++ ".png") := by
  intro imgs
  induction imgs with
  | nil => intro i; rfl
  | cons x xs ih =>
    intro i
    simp only [saveImagesLoop, List.map_cons, List.length_cons, List.range_succ_eq_map,
      List.map_map, ih]
    rw [List.cons_eq_cons]
    refine ⟨by simp, ?_⟩
    symm
    apply List.map_congr_left
    intro j hj
    simp only [Function.comp_apply]
    have h2 : i + Nat.succ j = i + 1 + j := by omega
    rw [h2]

/-- C8: `save_images` creates the target directory (with parents) even for
an empty input, writes the i-th image (in input order) to
`base_name_{i:02d}.png` with the two-digit zero-padded index starting at 1,
and returns the written paths in that same order; the empty input yields no
writes and the empty path list. -/
theorem c8_save_images_contract (images : List PageImage) (output_dir base_filename : String) :
    (save_images images output_dir base_filename).createdDirs = [output_dir] ∧
    (save_images images output_dir base_filename).writes.map Prod.snd = images ∧
    (save_images images output_dir base_filename).saved_paths =
      (List.range images.length).map
        (fun i => output_dir ++ "/" ++ base_filename ++ "_" ++ pad2 (i + 1) ++ ".png") ∧
    (images = [] → (save_images images output_dir base_filename).saved_paths = []) ∧
    (∀ n, n < 100 → 0 < n → (pad2 n).length = 2) := by
  refine ⟨rfl, saveImagesLoop_snd output_dir base_filename images 1, ?_, ?_, by decide⟩
  · rw [show (save_images images output_dir base_filename).saved_paths =
      (saveImagesLoop output_dir base_filename 1 images).map Prod.fst from rfl,
      saveImagesLoop_fst]
    apply List.map_congr_left
    intro j hj
    have h2 : 1 + j = j + 1 := by omega
    rw [h2]
  · intro h
    subst h
    rfl

/-- C9: a failing update is atomic: when the merged configuration does not
validate, the raised error leaves the stored configuration and the cached
client exactly as they were before the call. -/
theorem c9_update_config_atomic (m : ModelManager) (u : ConfigUpdate) (err : String)
    (h : (ModelManager.update_config m u).2 = some err) :
    (ModelManager.update_config m u).1 = m ∧
    (ModelManager.update_config m u).1.clientCache = m.clientCache ∧
    (ModelManager.update_config m u).1.config = m.config := by
  simp only [ModelManager.update_config] at h ⊢
  cases hmk : mkModelConfig (u.api_key.getD m.config.api_key)
      (u.endpoint.getD m.config.endpoint) (u.api_version.getD m.config.api_version)
      (u.deployment_name.getD m.config.deployment_name) with
  | error e => simp [hmk]
  | ok c => rw [hmk] at h; simp at h

/-- Witness for C9: blanking the credential of a manager with a cached
client fails validation and leaves both the configuration and the cached
client in place. -/
theorem c9_update_config_atomic_witness :
    (ModelManager.update_config mgrCached updEmptyKey).1 = mgrCached ∧
    (ModelManager.update_config mgrCached updEmptyKey).1.clientCache = mgrCached.clientCache ∧
    (ModelManager.update_config mgrCached updEmptyKey).1.config = mgrCached.config :=
  c9_update_config_atomic mgrCached updEmptyKey "AZURE_OPENAI_API_KEY is required" (by decide)

/-- C10: path validation checks existence before the extension: a
nonexistent path always gets the file-not-found error whatever its
extension; the wrong-file-type error only ever occurs for an existing path;
an existing path whose suffix lower-cases to ".pdf" is accepted (the
extension check is case-insensitive, witnessed by the accepted upper-case
"resume.PDF"). -/
theorem c10_validate_pdf_path_order (fsExists : String → Bool) (p : String) :
    (fsExists p = false →
      validate_pdf_path fsExists p = .error (.fileNotFound ("File not found: " ++ p))) ∧
    (∀ msg, validate_pdf_path fsExists p = .error (.valueError msg) → fsExists p = true) ∧
    (fsExists p = true → strToLower (pathSuffix p) = ".pdf" →
      validate_pdf_path fsExists p = .ok p) ∧
    (fsExists p = true → strToLower (pathSuffix p) ≠ ".pdf" →
      validate_pdf_path fsExists p = .error (.valueError ("File is not a PDF: " ++ p))) ∧
    validate_pdf_path (fun _ => true) "resume.PDF" = .ok "resume.PDF" := by
  refine ⟨fun h => by simp [validate_pdf_path, h], fun msg hmsg => ?_,
    fun h hs => by simp [validate_pdf_path, h, hs],
    fun h hs => by simp [validate_pdf_path, h, hs], by decide⟩
  by_cases h : fsExists p = true
  · exact h
  · rw [Bool.not_eq_true] at h
    simp [validate_pdf_path, h] at hmsg
